import Mathlib

/-!
Verification development for the PO-file translation pipeline
(src/po_translator.py).  The Python source is shallowly embedded: pure
functions become Lean functions, the mutable globals (translation cache,
interruption flag, backup-file bookkeeping) become explicit state that is
threaded through, and external effects (the HTTP translation services,
the file system, wall-clock timestamps) become explicit parameters.
-/

namespace POTranslator

/-! ## Python dict model

The in-memory translation cache and the per-batch results mapping are
Python dicts keyed by strings.  We model a dict as an insertion-ordered
association list: insertion overwrites an existing key in place and
appends a new key at the end, exactly as CPython does. -/

/-- Model of Python dict assignment d[k] = v. -/
def dictInsert : List (String × String) → String → String → List (String × String)
  | [], k, v => [(k, v)]
  | (k1, v1) :: rest, k, v =>
      if k1 = k then (k, v) :: rest else (k1, v1) :: dictInsert rest k v

/-- Model of Python dict lookup d.get(k) (None on a missing key). -/
def dictGet : List (String × String) → String → Option String
  | [], _ => none
  | (k1, v1) :: rest, k => if k1 = k then some v1 else dictGet rest k

/-! ## Python string truthiness and str.isspace -/

/-- Truthiness of a Python string: the empty string is falsy. -/
def pyFalsy (s : String) : Bool := s == ""

/-- Whitespace code points recognized by Python str.isspace. -/
def pyIsSpaceChar (c : Char) : Bool :=
  [9, 10, 11, 12, 13, 28, 29, 30, 31, 32, 133, 160, 5760, 8192, 8193, 8194,
   8195, 8196, 8197, 8198, 8199, 8200, 8201, 8202, 8232, 8233, 8239, 8287,
   12288].contains c.toNat

/-- Model of Python text.isspace(): nonempty and all characters whitespace. -/
def pyIsSpace (s : String) : Bool :=
  !s.data.isEmpty && s.data.all pyIsSpaceChar

/-- Truthiness of an optional Python string (None and "" are falsy). -/
def pyTruthyOpt : Option String → Bool
  | none => false
  | some s => !(s == "")

/-- Model of Python s.startswith(p) on whole strings. -/
def pyStartsWith (s p : String) : Bool :=
  p.data.isPrefixOf s.data

/-- Model of Python string comparison (lexicographic by code point) on
the underlying character lists. -/
def pyStrLe : List Char → List Char → Bool
  | [], _ => true
  | _ :: _, [] => false
  | a :: as, b :: bs =>
      if a.toNat < b.toNat then true
      else if b.toNat < a.toNat then false
      else pyStrLe as bs

/-- Model of Python string less-or-equal. -/
def pyLe (a b : String) : Bool :=
  pyStrLe a.data b.data

/-! ## MD5 (hashlib.md5(...).hexdigest())

The cache key (get_cache_key, lines 197-201) hashes the text with
hashlib.md5 over its UTF-8 encoding.  We embed MD5 itself so the
fingerprint function is the one the program computes.  32-bit machine
arithmetic is modelled as Nat with explicit reduction modulo 2^32. -/

/-- Reduction modulo 2^32, the word size of MD5 arithmetic. -/
def m32 (x : Nat) : Nat := x % 4294967296

/-- Left rotation of a 32-bit word by n bits. -/
def rotl32 (x n : Nat) : Nat := m32 ((x <<< n) ||| (x >>> (32 - n)))

/-- Per-round additive constants of MD5 (floor(2^32 * abs(sin(i+1)))). -/
def md5K : List Nat :=
  [3614090360, 3905402710, 606105819, 3250441966,
   4118548399, 1200080426, 2821735955, 4249261313,
   1770035416, 2336552879, 4294925233, 2304563134,
   1804603682, 4254626195, 2792965006, 1236535329,
   4129170786, 3225465664, 643717713, 3921069994,
   3593408605, 38016083, 3634488961, 3889429448,
   568446438, 3275163606, 4107603335, 1163531501,
   2850285829, 4243563512, 1735328473, 2368359562,
   4294588738, 2272392833, 1839030562, 4259657740,
   2763975236, 1272893353, 4139469664, 3200236656,
   681279174, 3936430074, 3572445317, 76029189,
   3654602809, 3873151461, 530742520, 3299628645,
   4096336452, 1126891415, 2878612391, 4237533241,
   1700485571, 2399980690, 4293915773, 2240044497,
   1873313359, 4264355552, 2734768916, 1309151649,
   4149444226, 3174756917, 718787259, 3951481745]

/-- Per-round left-rotation amounts of MD5. -/
def md5S : List Nat :=
  [7, 12, 17, 22, 7, 12, 17, 22, 7, 12, 17, 22, 7, 12, 17, 22,
   5, 9, 14, 20, 5, 9, 14, 20, 5, 9, 14, 20, 5, 9, 14, 20,
   4, 11, 16, 23, 4, 11, 16, 23, 4, 11, 16, 23, 4, 11, 16, 23,
   6, 10, 15, 21, 6, 10, 15, 21, 6, 10, 15, 21, 6, 10, 15, 21]

/-- Round function of MD5 (F, G, H, I depending on the round index). -/
def md5F (i b c d : Nat) : Nat :=
  if i < 16 then (b &&& c) ||| ((b ^^^ 4294967295) &&& d)
  else if i < 32 then (d &&& b) ||| ((d ^^^ 4294967295) &&& c)
  else if i < 48 then b ^^^ c ^^^ d
  else c ^^^ (b ||| (d ^^^ 4294967295))

/-- Message-word index schedule of MD5. -/
def md5G (i : Nat) : Nat :=
  if i < 16 then i
  else if i < 32 then (5 * i + 1) % 16
  else if i < 48 then (3 * i + 5) % 16
  else (7 * i) % 16

/-- One round of the MD5 compression function on state (a, b, c, d). -/
def md5Step (M : List Nat) (st : Nat × Nat × Nat × Nat) (i : Nat) :
    Nat × Nat × Nat × Nat :=
  let a := st.1
  let b := st.2.1
  let c := st.2.2.1
  let d := st.2.2.2
  let f := m32 (md5F i b c d + a + md5K.getD i 0 + M.getD (md5G i) 0)
  (d, m32 (b + rotl32 f (md5S.getD i 0)), b, c)

/-- Assemble little-endian 32-bit words from a byte list. -/
def toWordsLE : List Nat → List Nat
  | b0 :: b1 :: b2 :: b3 :: rest =>
      (b0 + 256 * b1 + 65536 * b2 + 16777216 * b3) :: toWordsLE rest
  | _ => []

/-- Little-endian byte decomposition of n into k bytes. -/
def toBytesLE : Nat → Nat → List Nat
  | 0, _ => []
  | k + 1, n => (n % 256) :: toBytesLE k (n / 256)

/-- Process one 64-byte chunk of the padded message. -/
def md5Chunk (st : Nat × Nat × Nat × Nat) (chunk : List Nat) :
    Nat × Nat × Nat × Nat :=
  let M := toWordsLE chunk
  let r := (List.range 64).foldl (md5Step M) st
  (m32 (st.1 + r.1), m32 (st.2.1 + r.2.1),
   m32 (st.2.2.1 + r.2.2.1), m32 (st.2.2.2 + r.2.2.2))

/-- MD5 padding: append 0x80, zeros to 56 mod 64, then the 64-bit
little-endian bit length. -/
def md5Pad (bytes : List Nat) : List Nat :=
  let L := bytes.length
  bytes ++ [128] ++ List.replicate ((119 - (L % 64)) % 64) 0 ++
    toBytesLE 8 ((8 * L) % 18446744073709551616)

/-- Fold the compression function over the 64-byte chunks. -/
def md5Chunks (st : Nat × Nat × Nat × Nat) (bytes : List Nat) :
    Nat × Nat × Nat × Nat :=
  match bytes with
  | [] => st
  | b :: rest =>
      md5Chunks (md5Chunk st (List.take 64 (b :: rest))) (List.drop 64 (b :: rest))
termination_by bytes.length
decreasing_by simp [List.length_drop]; omega

/-- Initial MD5 state. -/
def md5Init : Nat × Nat × Nat × Nat :=
  (1732584193, 4023233417, 2562383102, 271733878)

/-- MD5 digest (16 bytes) of a byte sequence. -/
def md5Bytes (bytes : List Nat) : List Nat :=
  let st := md5Chunks md5Init (md5Pad bytes)
  toBytesLE 4 st.1 ++ toBytesLE 4 st.2.1 ++ toBytesLE 4 st.2.2.1 ++
    toBytesLE 4 st.2.2.2

/-- Lowercase hexadecimal digit. -/
def hexDigit (n : Nat) : Char :=
  "0123456789abcdef".data.getD n '0'

/-- Two lowercase hex digits of one byte. -/
def byteToHex (n : Nat) : List Char :=
  [hexDigit (n / 16), hexDigit (n % 16)]

/-- UTF-8 encoding of one character (Python text.encode('utf-8')). -/
def utf8EncodeChar (c : Char) : List Nat :=
  let n := c.toNat
  if n < 128 then [n]
  else if n < 2048 then [192 + n / 64, 128 + n % 64]
  else if n < 65536 then [224 + n / 4096, 128 + (n / 64) % 64, 128 + n % 64]
  else [240 + n / 262144, 128 + (n / 4096) % 64, 128 + (n / 64) % 64,
        128 + n % 64]

/-- UTF-8 byte sequence of a string. -/
def utf8Bytes (s : String) : List Nat :=
  s.data.flatMap utf8EncodeChar

/-- Model of hashlib.md5(text.encode('utf-8')).hexdigest(). -/
def md5hex (s : String) : String :=
  ⟨(md5Bytes (utf8Bytes s)).flatMap byteToHex⟩

/-! ## Cache Store (lines 197-223)

The translation cache is the module-global dict translation_cache,
threaded here as explicit state.  The periodic flush to disk
(save_translation_cache every 100 insertions) is file I/O and does not
change the in-memory mapping, so it does not appear in the state. -/

/-- Model of get_cache_key (lines 197-201): the fingerprint is the
source language, target language and MD5 hash of the text, joined by
underscores. -/
def get_cache_key (text source_lang target_lang : String) : String :=
  source_lang ++ "_" ++ target_lang ++ "_" ++ md5hex text

/-- Model of get_cached_translation (lines 203-210): empty or
whitespace-only text is returned as is without consulting the mapping;
otherwise the fingerprint is looked up (None on a miss). -/
def get_cached_translation (translation_cache : List (String × String))
    (text source_lang target_lang : String) : Option String :=
  if pyFalsy text || pyIsSpace text then some text
  else dictGet translation_cache (get_cache_key text source_lang target_lang)

/-- Model of cache_translation (lines 212-223): empty or whitespace-only
text, and empty translated text, are not cached; otherwise the
fingerprint is mapped to the translated text. -/
def cache_translation (translation_cache : List (String × String))
    (text translated_text source_lang target_lang : String) :
    List (String × String) :=
  if pyFalsy text || pyIsSpace text || pyFalsy translated_text then
    translation_cache
  else
    dictInsert translation_cache (get_cache_key text source_lang target_lang)
      translated_text

/-! ## Translation Backend and translate_text (lines 225-337)

The HTTP services are external capabilities.  A Backend maps
(text, source language, target language) to some translated text, or
none when every network attempt fails.  translate_with_google tries two
endpoints and returns the original text when both fail; the two
attempts collapse into one abstract capability with the same contract.
The lru_cache decorators memoize pure calls and are not modelled. -/

/-- Abstract translation capability: none models failure of the network
call(s). -/
def Backend : Type := String → String → String → Option String

/-- Model of translate_with_google (lines 225-257): empty or
whitespace-only text is returned unchanged; on backend failure the
original text is returned. -/
def translate_with_google (backend : Backend) (text source_lang target_lang : String) :
    String :=
  if pyFalsy text || pyIsSpace text then text
  else
    match backend text source_lang target_lang with
    | some translated => translated
    | none => text

/-- Model of translate_with_libretranslate (lines 259-280): same
failure contract as the Google service. -/
def translate_with_libretranslate (backend : Backend)
    (text source_lang target_lang : String) : String :=
  if pyFalsy text || pyIsSpace text then text
  else
    match backend text source_lang target_lang with
    | some translated => translated
    | none => text

/-- Model of translate_with_mymemory (lines 282-308): the source
language "auto" is replaced by "en"; same failure contract. -/
def translate_with_mymemory (backend : Backend)
    (text source_lang target_lang : String) : String :=
  if pyFalsy text || pyIsSpace text then text
  else
    match backend text (if source_lang = "auto" then "en" else source_lang)
        target_lang with
    | some translated => translated
    | none => text

/-- Outcome of one translate_text call: the returned string, the cache
state afterwards, and whether a translation service was invoked. -/
structure TranslateOutcome where
  result : String
  cache : List (String × String)
  backend_called : Bool
deriving DecidableEq

/-- Model of translate_text (lines 310-337): empty or whitespace-only
text is returned unchanged; a truthy cached value is returned without
calling any service; otherwise the selected service is invoked and the
outcome is passed to cache_translation. -/
def translate_text (service : String) (backend : Backend)
    (translation_cache : List (String × String))
    (text source_lang target_lang : String) : TranslateOutcome :=
  if pyFalsy text || pyIsSpace text then
    ⟨text, translation_cache, false⟩
  else
    let cached := get_cached_translation translation_cache text source_lang target_lang
    if pyTruthyOpt cached then ⟨cached.getD "", translation_cache, false⟩
    else
      let result :=
        if service = "google" then
          translate_with_google backend text source_lang target_lang
        else if service = "libretranslate" then
          translate_with_libretranslate backend text source_lang target_lang
        else if service = "mymemory" then
          translate_with_mymemory backend text source_lang target_lang
        else text
      let called := (service == "google") || (service == "libretranslate") ||
        (service == "mymemory")
      ⟨result,
       cache_translation translation_cache text result source_lang target_lang,
       called⟩

/-! ## Cache loading and the --no-cache flag (lines 162-183, 732-736)

main sets the global translation_cache to None when --no-cache is
passed; translate_po_file then calls load_translation_cache, which
assigns the global a dict loaded from disk (or a fresh empty dict)
regardless of its previous value.  The Option models the
possibly-None global; the disk parameter models the cache file
contents (none when no cache file exists). -/

/-- Model of the --no-cache branch of main (lines 732-736): the global
cache is replaced by None. -/
def apply_no_cache (no_cache : Bool)
    (translation_cache : Option (List (String × String))) :
    Option (List (String × String)) :=
  if no_cache then none else translation_cache

/-- Model of load_translation_cache (lines 162-183): the global cache is
assigned the dict parsed from the cache file, or a fresh empty dict,
irrespective of the previous value of the global (second argument). -/
def load_translation_cache (disk : Option (List (String × String)))
    (prev : Option (List (String × String))) :
    Option (List (String × String)) :=
  some (disk.getD [])

/-- State of the global translation_cache at the start of the batch
loop of a run of main: the initial empty dict (line 80), then the
--no-cache branch (lines 732-736), then load_translation_cache
(line 531). -/
def cache_at_run_start (no_cache : Bool)
    (disk : Option (List (String × String))) :
    Option (List (String × String)) :=
  load_translation_cache disk (apply_no_cache no_cache (some []))

/-! ## Worker pool and batch dispatch (lines 386-489)

The worker loop (worker_translate) pulls tasks (index, entry_id, text)
from the work queue, translates, and puts (index, entry_id, translated)
on the result queue; an unexpected exception while processing a task is
printed and the task is marked done with nothing put on the result
queue.  We model the per-task translation as an abstract function
(translate_text applied to the run's service, backend, cache and
language pair) and the unexpected exception by an oracle on tasks.
Worker scheduling is modelled by the queue order: results appear in
task order, which is one admissible interleaving. -/

/-- Model of the worker loop (lines 386-425): each task either completes
and contributes (index, entry_id, translated) to the result queue, or
raises, is logged and marked done, and contributes nothing. -/
def run_workers (translate1 : String → String)
    (raises : Nat × String × String → Bool)
    (tasks : List (Nat × String × String)) : List (Nat × String × String) :=
  tasks.filterMap fun t =>
    if raises t then none else some (t.1, t.2.1, translate1 t.2.2)

/-- Model of batch_translate (lines 427-489): when interrupted no work
is dispatched and the empty dict is returned; otherwise the result queue
is drained into a dict keyed by entry_id alone
(results[entry_id] = translated, line 487). -/
def batch_translate (interrupted : Bool) (translate1 : String → String)
    (raises : Nat × String × String → Bool)
    (texts : List (Nat × String × String)) : List (String × String) :=
  if interrupted then []
  else
    (run_workers translate1 raises texts).foldl
      (fun results r => dictInsert results r.2.1 r.2.2) []

/-! ## Catalog entries, extraction and merge (lines 537-554, 600-609) -/

/-- Model of a polib POEntry: the fields the pipeline reads and writes.
msgstr_plural is a dict from the plural index to the text; polib may key
it by int or str, and the merge code converts accordingly (lines
607-608); we uniformly use the string representation of the index. -/
structure POEntry where
  msgid : String
  msgstr : String
  msgid_plural : String
  msgstr_plural : List (String × String)
  obsolete : Bool
deriving DecidableEq

/-- Model of the task-extraction pass of translate_po_file (lines
537-554) for one entry at index i, keeping the source's redundant
if/elif pair on ignore_translated (both branches append the same task). -/
def extract_entry (ignore_translated : Bool) (i : Nat) (e : POEntry) :
    List (Nat × String × String) :=
  if e.msgid ≠ "" ∧ ¬e.obsolete then
    (if e.msgstr = "" ∧ ¬ignore_translated then [(i, "msgstr", e.msgid)]
     else if e.msgstr = "" ∧ ignore_translated then [(i, "msgstr", e.msgid)]
     else []) ++
    (if e.msgid_plural ≠ "" ∧ e.msgstr_plural ≠ [] then
      e.msgstr_plural.filterMap fun p =>
        if p.2 = "" then
          some (i, "msgstr_plural_" ++ p.1,
            if p.1 ≠ "0" then e.msgid_plural else e.msgid)
        else none
     else [])
  else []

/-- Model of the extraction loop (lines 537-554): every task carries the
entry index and a field selector string. -/
def entries_to_translate (ignore_translated : Bool) (po : List POEntry) :
    List (Nat × String × String) :=
  (po.enum.map fun p => extract_entry ignore_translated p.1 p.2).flatten

/-- Model of the merge step of translate_po_file (lines 600-609): for
each task of the batch, the entry at the task's index receives
batch_results.get(entry_id, '') in the field named by entry_id.  The
source indexes po[i] directly; indices produced by extraction are in
range, and an out-of-range index is modelled as a no-op. -/
def merge_batch (po : List POEntry) (batch : List (Nat × String × String))
    (batch_results : List (String × String)) : List POEntry :=
  batch.foldl
    (fun po t =>
      let i := t.1
      let entry_id := t.2.1
      match po[i]? with
      | none => po
      | some e =>
        if entry_id = "msgstr" then
          po.set i { e with msgstr := (dictGet batch_results entry_id).getD "" }
        else if pyStartsWith entry_id "msgstr_plural_" then
          let plural_index := (entry_id.splitOn "_").getLastD ""
          po.set i
            { e with
              msgstr_plural := dictInsert e.msgstr_plural plural_index
                ((dictGet batch_results entry_id).getD "") }
        else po)
    po

/-! ## Checkpoint Manager (lines 339-384)

save_progress writes the catalog to a backup file and, on a final save,
copies the backup over the canonical output file and prunes older
backups.  The globals last_saved_file and backup_file become a state
record; the current wall-clock timestamp, the directory listing, and
whether each file write raises become parameters; completed file-system
effects are recorded as a list of operations. -/

/-- A completed file-system effect of save_progress: a direct
po.save(path), a shutil.copy2(src, dst), or an os.remove(path). -/
inductive FileOp where
  | save : String → FileOp
  | copy : String → String → FileOp
  | remove : String → FileOp
deriving DecidableEq

/-- State of the globals last_saved_file and backup_file (lines 74-75),
both initially None. -/
structure SaveState where
  last_saved_file : Option String
  backup_file : Option String
deriving DecidableEq

/-- Model of the last index of a character in a string (str.rfind),
returning none where Python returns -1. -/
def lastIdxOf : List Char → Char → Option Nat
  | [], _ => none
  | a :: rest, c =>
      match lastIdxOf rest c with
      | some i => some (i + 1)
      | none => if a = c then some 0 else none

/-- Model of os.path.splitext: split at the last dot of the basename,
unless every character between the last separator and that dot is a dot
(leading dots are not an extension). -/
def splitext (p : String) : String × String :=
  let cs := p.data
  match lastIdxOf cs '.' with
  | none => (p, "")
  | some d =>
    let start := match lastIdxOf cs '/' with
      | none => 0
      | some s1 => s1 + 1
    let after_sep := match lastIdxOf cs '/' with
      | none => true
      | some s1 => decide (s1 < d)
    if after_sep && ((cs.drop start).take (d - start)).any (fun c => c ≠ '.') then
      (⟨cs.take d⟩, ⟨cs.drop d⟩)
    else (p, "")

/-- Model of os.path.dirname. -/
def dirname (p : String) : String :=
  match lastIdxOf p.data '/' with
  | none => ""
  | some i => ⟨p.data.take i⟩

/-- Model of os.path.basename. -/
def basename (p : String) : String :=
  match lastIdxOf p.data '/' with
  | none => p
  | some i => ⟨p.data.drop (i + 1)⟩

/-- Model of os.path.join as used on (dirname(output_file), filename). -/
def path_join (d f : String) : String :=
  if d = "" then f else d ++ "/" ++ f

/-- Model of create_backup_filename (lines 339-343); the timestamp
string (datetime.now) is a parameter. -/
def create_backup_filename (output_file timestamp : String) : String :=
  let be := splitext output_file
  be.1 ++ "_backup_" ++ timestamp ++ be.2

/-- Filename stem that identifies backup files of output_file in the
pruning filter of save_progress (lines 366-367). -/
def backupStem (output_file : String) : String :=
  basename (splitext output_file).1 ++ "_backup_"

/-- Model of the backup pruning of save_progress (lines 364-376): the
backup files in the directory listing are sorted newest first
(sort(reverse=True) on the timestamped names) and all but the first are
removed. -/
def prune_backups (output_file : String) (dir_listing : List String) :
    List FileOp :=
  let backup_files := dir_listing.filter fun f => pyStartsWith f (backupStem output_file)
  let sorted := backup_files.insertionSort fun a b => pyLe b a = true
  (sorted.drop 1).map fun f => FileOp.remove (path_join (dirname output_file) f)

/-- Model of save_progress (lines 345-384).  A fresh timestamped backup
name is chosen only on the first save of the run or on a final save;
otherwise the existing backup path is reused.  The source's outer try
block spans po.save(backup_file), shutil.copy2(backup_file,
output_file) and the pruning's os.listdir, so each of these steps has a
failure knob (backup_save_fails, copy_fails, listdir_fails); if any of
them raises, the except block falls back to saving the canonical output
path directly (direct_save_fails models that fallback save also
raising, leaving no completed write).  The per-file os.remove failures
are swallowed by an inner try and do not reach the fallback.  On a
fully successful final save the backup is copied onto the canonical
output and, when the run was not interrupted, older backups are
pruned. -/
def save_progress (st : SaveState) (interrupted : Bool)
    (output_file timestamp : String)
    (backup_save_fails copy_fails listdir_fails direct_save_fails : Bool)
    (dir_listing : List String) (is_final : Bool) :
    SaveState × List FileOp :=
  let backup_file :=
    if st.last_saved_file.isNone || is_final then
      create_backup_filename output_file timestamp
    else st.backup_file.getD ""
  let fallback_ops : List FileOp :=
    if direct_save_fails then [] else [FileOp.save output_file]
  if backup_save_fails then
    (⟨st.last_saved_file, some backup_file⟩, fallback_ops)
  else
    let st1 : SaveState := ⟨some backup_file, some backup_file⟩
    if is_final then
      if copy_fails then
        (st1, FileOp.save backup_file :: fallback_ops)
      else if interrupted then
        (st1, [FileOp.save backup_file, FileOp.copy backup_file output_file])
      else if listdir_fails then
        (st1, FileOp.save backup_file :: FileOp.copy backup_file output_file ::
          fallback_ops)
      else
        (st1, FileOp.save backup_file :: FileOp.copy backup_file output_file ::
          prune_backups output_file dir_listing)
    else (st1, [FileOp.save backup_file])

/-! ## Cancellation Coordinator and the batch loop (lines 87-100,
443-445, 578-598)

The global interrupted flag is written only by signal_handler (which
sets it to True) and read by the batch loop of translate_po_file, which
breaks before dispatching the next batch once the flag is set, and by
batch_translate, which refuses to start work.  The loop is modelled
over a list of (signal arrived before this iteration, batch) pairs. -/

/-- Model of signal_handler (lines 87-100): the only writer of the
interrupted flag, and it only ever sets it to True. -/
def signal_handler (interrupted : Bool) : Bool :=
  true

/-- Model of the batch loop of translate_po_file (lines 578-598): before
each iteration the interrupt signal may arrive (signal_handler runs);
the loop then checks the flag and breaks without dispatching when it is
set.  Returns the final flag and the batches actually dispatched. -/
def batch_loop {α : Type} : Bool → List (Bool × α) → Bool × List α
  | interrupted, [] => (interrupted, [])
  | interrupted, (sig, b) :: rest =>
      let intr := if sig then signal_handler interrupted else interrupted
      if intr then (intr, [])
      else
        let r := batch_loop intr rest
        (r.1, b :: r.2)

/-! ## Helper lemmas -/

/-- The Python string order is total. -/
theorem pyStrLe_total : ∀ as bs : List Char,
    pyStrLe as bs = true ∨ pyStrLe bs as = true := by
  intro as
  induction as with
  | nil => intro bs; left; rfl
  | cons a as ih =>
      intro bs
      cases bs with
      | nil => right; rfl
      | cons b bs =>
          by_cases h1 : a.toNat < b.toNat
          · left; simp [pyStrLe, h1]
          · by_cases h2 : b.toNat < a.toNat
            · right; simp [pyStrLe, h2]
            · rcases ih bs with h | h
              · left; simp [pyStrLe, h1, h2, h]
              · right; simp [pyStrLe, h1, h2, h]

/-- The Python string order is reflexive. -/
theorem pyStrLe_refl : ∀ as : List Char, pyStrLe as as = true := by
  intro as
  induction as with
  | nil => rfl
  | cons a as ih => simp [pyStrLe, ih]

/-- The Python string order is transitive. -/
theorem pyStrLe_trans : ∀ as bs cs : List Char, pyStrLe as bs = true →
    pyStrLe bs cs = true → pyStrLe as cs = true := by
  intro as
  induction as with
  | nil => intro bs cs _ _; rfl
  | cons a as ih =>
      intro bs cs h1 h2
      cases bs with
      | nil => simp [pyStrLe] at h1
      | cons b bs =>
          cases cs with
          | nil => simp [pyStrLe] at h2
          | cons c cs =>
              simp only [pyStrLe] at h1 h2 ⊢
              by_cases hab : a.toNat < b.toNat
              · by_cases hbc : b.toNat < c.toNat
                · have hac : a.toNat < c.toNat := Nat.lt_trans hab hbc
                  simp [hac]
                · by_cases hcb : c.toNat < b.toNat
                  · rw [if_neg hbc, if_pos hcb] at h2
                    exact absurd h2 (by simp)
                  · have hac : a.toNat < c.toNat := by omega
                    simp [hac]
              · by_cases hba : b.toNat < a.toNat
                · rw [if_neg hab, if_pos hba] at h1
                  exact absurd h1 (by simp)
                · rw [if_neg hab, if_neg hba] at h1
                  by_cases hbc : b.toNat < c.toNat
                  · have hac : a.toNat < c.toNat := by omega
                    simp [hac]
                  · by_cases hcb : c.toNat < b.toNat
                    · rw [if_neg hbc, if_pos hcb] at h2
                      exact absurd h2 (by simp)
                    · rw [if_neg hbc, if_neg hcb] at h2
                      have hac : ¬a.toNat < c.toNat := by omega
                      have hca : ¬c.toNat < a.toNat := by omega
                      rw [if_neg hac, if_neg hca]
                      exact ih bs cs h1 h2

/-- Totality instance for the reversed Python string order used by the
backup sort. -/
@[instance] theorem instIsTotalPyGe : IsTotal String (fun a b => pyLe b a = true) :=
  ⟨fun a b => pyStrLe_total b.data a.data⟩

/-- Transitivity instance for the reversed Python string order. -/
@[instance] theorem instIsTransPyGe : IsTrans String (fun a b => pyLe b a = true) :=
  ⟨fun _ _ _ h1 h2 => pyStrLe_trans _ _ _ h2 h1⟩

/-- Looking up a key just inserted into a dict returns the inserted
value. -/
theorem dictGet_dictInsert_self (m : List (String × String)) (k v : String) :
    dictGet (dictInsert m k v) k = some v := by
  induction m with
  | nil => simp [dictInsert, dictGet]
  | cons p rest ih =>
      obtain ⟨k1, v1⟩ := p
      by_cases h : k1 = k
      · simp [dictInsert, dictGet, h]
      · simp [dictInsert, dictGet, h, ih]

/-- Membership after a dict insertion: the new pair or an old one. -/
theorem mem_dictInsert (m : List (String × String)) (k v : String)
    (p : String × String) (hp : p ∈ dictInsert m k v) : p = (k, v) ∨ p ∈ m := by
  induction m with
  | nil => simpa [dictInsert] using hp
  | cons q rest ih =>
      obtain ⟨k1, v1⟩ := q
      by_cases h : k1 = k
      · simp only [dictInsert, if_pos h] at hp
        rcases List.mem_cons.mp hp with h1 | h1
        · exact Or.inl h1
        · exact Or.inr (List.mem_cons_of_mem _ h1)
      · simp only [dictInsert, if_neg h] at hp
        rcases List.mem_cons.mp hp with h1 | h1
        · exact Or.inr (h1 ▸ List.mem_cons_self _ _)
        · rcases ih h1 with h2 | h2
          · exact Or.inl h2
          · exact Or.inr (List.mem_cons_of_mem _ h2)

/-- String append acts as list append on the underlying characters. -/
theorem string_data_append (a b : String) : (a ++ b).data = a.data ++ b.data := by
  cases a
  cases b
  rfl

/-- String length is additive over append. -/
theorem string_length_append (a b : String) :
    (a ++ b).length = a.length + b.length := by
  cases a with
  | mk as =>
    cases b with
    | mk bs => exact List.length_append as bs

/-- Appending the empty string is the identity. -/
theorem string_append_empty (s : String) : s ++ "" = s := by
  cases s with
  | mk cs =>
    show String.mk (cs ++ []) = String.mk cs
    rw [List.append_nil]

/-- The two components of splitext concatenate back to the path. -/
theorem splitext_append (p : String) : (splitext p).1 ++ (splitext p).2 = p := by
  unfold splitext
  dsimp only
  split
  · exact string_append_empty p
  · rename_i d hd
    split
    · show String.mk (p.data.take d ++ p.data.drop d) = p
      rw [List.take_append_drop]
    · exact string_append_empty p

/-- A timestamped backup filename is never the canonical output path
(it is strictly longer). -/
theorem create_backup_filename_ne (output ts : String) :
    create_backup_filename output ts ≠ output := by
  intro h
  have h1 := congrArg String.length h
  have h2 := congrArg String.length (splitext_append output)
  have h8 : ("_backup_" : String).length = 8 := rfl
  simp only [create_backup_filename, string_length_append] at h1 h2
  omega

/-- Splitting a list at a distinguished element that occurs in neither
prefix is unambiguous. -/
theorem append_cons_inj {x : Char} :
    ∀ {a b u v : List Char}, x ∉ a → x ∉ b →
      a ++ x :: u = b ++ x :: v → a = b ∧ u = v := by
  intro a
  induction a with
  | nil =>
      intro b u v _ hb h
      cases b with
      | nil => simpa using h
      | cons c cs =>
          simp only [List.nil_append, List.cons_append, List.cons.injEq] at h
          exact absurd (h.1 ▸ List.mem_cons_self c cs) (h.1 ▸ hb)
  | cons c cs ih =>
      intro b u v ha hb h
      cases b with
      | nil =>
          simp only [List.cons_append, List.nil_append, List.cons.injEq] at h
          exact absurd (h.1 ▸ List.mem_cons_self c cs) (h.1.symm ▸ ha)
      | cons c2 cs2 =>
          simp only [List.cons_append, List.cons.injEq] at h
          have ha' : x ∉ cs := fun hm => ha (List.mem_cons_of_mem _ hm)
          have hb' : x ∉ cs2 := fun hm => hb (List.mem_cons_of_mem _ hm)
          obtain ⟨h1, h2⟩ := ih ha' hb' h.2
          exact ⟨by rw [h.1, h1], h2⟩

/-- On a cache miss with nonempty, non-whitespace text, translate_text
invokes the Google service and stores its outcome. -/
theorem translate_text_google_miss (backend : Backend)
    (cache : List (String × String)) (text s t : String)
    (h1 : pyFalsy text = false) (h2 : pyIsSpace text = false)
    (h3 : dictGet cache (get_cache_key text s t) = none) :
    translate_text "google" backend cache text s t =
      ⟨translate_with_google backend text s t,
       cache_translation cache text (translate_with_google backend text s t) s t,
       true⟩ := by
  unfold translate_text get_cached_translation
  simp [h1, h2, h3, pyTruthyOpt]

/-- With nonempty, non-whitespace text and nonempty translation,
cache_translation inserts the fingerprinted entry. -/
theorem cache_translation_store (cache : List (String × String))
    (text tr s t : String) (h1 : pyFalsy text = false)
    (h2 : pyIsSpace text = false) (h3 : pyFalsy tr = false) :
    cache_translation cache text tr s t =
      dictInsert cache (get_cache_key text s t) tr := by
  simp [cache_translation, h1, h2, h3]

/-- A failing backend makes translate_with_google return the original
text. -/
theorem translate_with_google_fail (backend : Backend) (text s t : String)
    (h1 : pyFalsy text = false) (h2 : pyIsSpace text = false)
    (hb : backend text s t = none) :
    translate_with_google backend text s t = text := by
  simp [translate_with_google, h1, h2, hb]

/-- No pruning operation is a direct save. -/
theorem save_not_mem_prune (output p : String) (dl : List String) :
    FileOp.save p ∉ prune_backups output dl := by
  intro hmem
  simp only [prune_backups, List.mem_map] at hmem
  obtain ⟨a, _, ha⟩ := hmem
  exact FileOp.noConfusion ha

/-- File operations of a non-final save in which no step of the try
block raises. -/
theorem save_progress_ops_nonfinal_no_fail (st : SaveState) (intr : Bool)
    (output ts : String) (dl : List String) :
    (save_progress st intr output ts false false false false dl false).2 =
      [FileOp.save (if st.last_saved_file.isNone then
        create_backup_filename output ts else st.backup_file.getD "")] := by
  simp [save_progress]

/-- File operations of a final save in which no step of the try block
raises. -/
theorem save_progress_ops_final_no_fail (st : SaveState) (intr : Bool)
    (output ts : String) (dl : List String) :
    (save_progress st intr output ts false false false false dl true).2 =
      FileOp.save (create_backup_filename output ts) ::
        FileOp.copy (create_backup_filename output ts) output ::
        (if intr then [] else prune_backups output dl) := by
  cases intr <;> simp [save_progress]

/-! ## Claims -/

/-- Claim C1 (code bug, evaluated at the failing input): batch_translate
keys its results dict by entry_id alone, so the two tasks
(0, msgstr, Hello) and (1, msgstr, World) of one batch collapse to the
single key "msgstr", and the merge step writes the surviving
translation "World#" into both entries — entry 0 does not receive the
translation of its own text, contradicting the per-(entry index, field
selector) identity the spec requires. -/
theorem claim1_results_keyed_by_field_only :
    batch_translate false (fun s => s ++ "#") (fun _ => false)
        [(0, "msgstr", "Hello"), (1, "msgstr", "World")] =
      [("msgstr", "World#")] ∧
    (merge_batch [⟨"Hello", "", "", [], false⟩, ⟨"World", "", "", [], false⟩]
        [(0, "msgstr", "Hello"), (1, "msgstr", "World")]
        (batch_translate false (fun s => s ++ "#") (fun _ => false)
          [(0, "msgstr", "Hello"), (1, "msgstr", "World")])).map POEntry.msgstr =
      ["World#", "World#"] := by
  constructor
  · rfl
  · rfl

/-- Claim C2 counterexample: with a backend that always fails, the task
for text "Hi" gets the degraded result "Hi", yet a cache entry IS
created for its (text, source, target) key — the cache does not stay
empty as the claim states. -/
theorem claim2_counterexample :
    (translate_text "google" (fun _ _ _ => none) [] "Hi" "en" "fa").result = "Hi" ∧
    dictGet (translate_text "google" (fun _ _ _ => none) [] "Hi" "en" "fa").cache
        (get_cache_key "Hi" "en" "fa") = some "Hi" := by
  have h := translate_text_google_miss (fun _ _ _ => none) [] "Hi" "en" "fa"
    (by decide) (by decide) rfl
  have hg : translate_with_google (fun _ _ _ => none) "Hi" "en" "fa" = "Hi" :=
    translate_with_google_fail _ _ _ _ (by decide) (by decide) rfl
  rw [h, hg]
  refine ⟨rfl, ?_⟩
  rw [cache_translation_store _ _ _ _ _ (by decide) (by decide) (by decide)]
  exact dictGet_dictInsert_self _ _ _

/-- Claim C2 (amended): for every task whose backend attempt fails, the
result equals the original source text, and a cache entry IS created
mapping the task's fingerprint to that original text (degraded outcomes
are cached, so they are not retried on a later run). -/
theorem claim2_amended (backend : Backend) (cache : List (String × String))
    (text s t : String) (hb : backend text s t = none)
    (h1 : pyFalsy text = false) (h2 : pyIsSpace text = false)
    (h3 : dictGet cache (get_cache_key text s t) = none) :
    (translate_text "google" backend cache text s t).result = text ∧
    dictGet (translate_text "google" backend cache text s t).cache
        (get_cache_key text s t) = some text := by
  have h := translate_text_google_miss backend cache text s t h1 h2 h3
  have hg := translate_with_google_fail backend text s t h1 h2 hb
  rw [h, hg]
  refine ⟨rfl, ?_⟩
  rw [cache_translation_store _ _ _ _ _ h1 h2 h1]
  exact dictGet_dictInsert_self _ _ _

/-- Claim C2 witness: the amended theorem applied at text "Hi", an empty
cache and an always-failing backend. -/
theorem claim2_witness :
    ((fun (_ _ _ : String) => (none : Option String)) "Hi" "en" "fa" = none) ∧
    pyFalsy "Hi" = false ∧ pyIsSpace "Hi" = false ∧
    dictGet [] (get_cache_key "Hi" "en" "fa") = none ∧
    ((translate_text "google" (fun _ _ _ => none) [] "Hi" "en" "fa").result = "Hi" ∧
     dictGet (translate_text "google" (fun _ _ _ => none) [] "Hi" "en" "fa").cache
        (get_cache_key "Hi" "en" "fa") = some "Hi") :=
  ⟨rfl, rfl, by decide, rfl,
   claim2_amended (fun _ _ _ => none) [] "Hi" "en" "fa" rfl rfl (by decide) rfl⟩

/-- Claim C3 counterexample: the sole task (0, msgstr, Hello), whose
worker raises, contributes nothing to the result queue (not a
degraded original-text result), and the merge step then writes the
empty string into the entry. -/
theorem claim3_counterexample :
    run_workers (fun s => s ++ "#") (fun _ => true) [(0, "msgstr", "Hello")] = [] ∧
    (merge_batch [⟨"Hello", "", "", [], false⟩] [(0, "msgstr", "Hello")]
        (batch_translate false (fun s => s ++ "#") (fun _ => true)
          [(0, "msgstr", "Hello")])).map POEntry.msgstr = [""] := by
  constructor
  · rfl
  · rfl

/-- Claim C3 (amended): a worker that raises on one task logs the error,
marks the task done, and continues with the remaining tasks, but the
failed task yields no result at all in the batch's result collection;
the merge step then assigns the empty string (not the original text) to
the task's entry. -/
theorem claim3_amended (translate1 : String → String)
    (raises : Nat × String × String → Bool)
    (pre post : List (Nat × String × String)) (tk : Nat × String × String)
    (po : List POEntry) (i : Nat) (txt : String) (e : POEntry)
    (hr : raises tk = true) (he : po[i]? = some e) :
    run_workers translate1 raises (pre ++ tk :: post) =
      run_workers translate1 raises pre ++ run_workers translate1 raises post ∧
    merge_batch po [(i, "msgstr", txt)] [] = po.set i { e with msgstr := "" } := by
  constructor
  · simp [run_workers, List.filterMap_append, List.filterMap_cons, hr]
  · simp [merge_batch, he, dictGet]

/-- Claim C3 witness: the amended theorem applied to a one-task batch
whose worker raises. -/
theorem claim3_witness :
    ((fun (_ : Nat × String × String) => true) (0, "msgstr", "Hello") = true) ∧
    ([(⟨"Hello", "", "", [], false⟩ : POEntry)][0]? =
      some ⟨"Hello", "", "", [], false⟩) ∧
    (run_workers (fun s => s) (fun _ => true) ([] ++ (0, "msgstr", "Hello") :: []) =
      run_workers (fun s => s) (fun _ => true) [] ++
        run_workers (fun s => s) (fun _ => true) [] ∧
     merge_batch [⟨"Hello", "", "", [], false⟩] [(0, "msgstr", "Hello")] [] =
      [⟨"Hello", "", "", [], false⟩].set 0 ⟨"Hello", "", "", [], false⟩) := by
  refine ⟨rfl, rfl, ?_⟩
  have h := claim3_amended (fun s => s) (fun _ => true) [] []
    (0, "msgstr", "Hello") [⟨"Hello", "", "", [], false⟩] 0 "Hello"
    ⟨"Hello", "", "", [], false⟩ rfl rfl
  exact h

/-- Claim C4 (code bug, evaluated at the failing input): main's
--no-cache branch sets the cache to None, but load_translation_cache
then unconditionally reassigns it a real dict, so at the start of the
batch loop the cache is active (some empty dict, never None) and a
successful translation of "Hello" writes an entry into it — caching is
not bypassed. -/
theorem claim4_no_cache_flag_overwritten :
    apply_no_cache true (some []) = none ∧
    (∀ disk prev, (load_translation_cache disk prev).isSome = true) ∧
    cache_at_run_start true none = some [] ∧
    (translate_text "google" (fun _ _ _ => some "Bonjour")
        ((cache_at_run_start true none).getD []) "Hello" "en" "fa").cache =
      [(get_cache_key "Hello" "en" "fa", "Bonjour")] := by
  refine ⟨rfl, fun disk prev => rfl, rfl, ?_⟩
  have h := translate_text_google_miss (fun _ _ _ => some "Bonjour") []
    "Hello" "en" "fa" (by decide) (by decide) rfl
  have hg : translate_with_google (fun _ _ _ => some "Bonjour") "Hello" "en" "fa" =
      "Bonjour" := by
    simp [translate_with_google]
    decide
  show (translate_text "google" (fun _ _ _ => some "Bonjour") []
      "Hello" "en" "fa").cache = _
  rw [h, hg]
  rw [cache_translation_store _ _ _ _ _ (by decide) (by decide) (by decide)]
  rfl

/-- Every backup filename that the pruning step retains is greatest in
the string order (the most recent, since the names embed sortable
timestamps) among the matching backups in the directory listing. -/
theorem prune_retained_max (output f g : String) (dl : List String)
    (hf : f ∈ dl.filter (fun x => pyStartsWith x (backupStem output)))
    (hnr : FileOp.remove (path_join (dirname output) f) ∉ prune_backups output dl)
    (hg : g ∈ dl.filter (fun x => pyStartsWith x (backupStem output))) :
    pyLe g f = true := by
  have hprune : prune_backups output dl =
      (((dl.filter (fun x => pyStartsWith x (backupStem output))).insertionSort
          (fun a b => pyLe b a = true)).drop 1).map
        (fun x => FileOp.remove (path_join (dirname output) x)) := rfl
  have hperm : List.Perm
      ((dl.filter (fun x => pyStartsWith x (backupStem output))).insertionSort
        (fun a b => pyLe b a = true))
      (dl.filter (fun x => pyStartsWith x (backupStem output))) :=
    List.perm_insertionSort _ _
  have hsorted := List.sorted_insertionSort (fun a b : String => pyLe b a = true)
    (dl.filter (fun x => pyStartsWith x (backupStem output)))
  have hf' := hperm.mem_iff.mpr hf
  have hg' := hperm.mem_iff.mpr hg
  cases hs : (dl.filter (fun x => pyStartsWith x (backupStem output))).insertionSort
      (fun a b => pyLe b a = true) with
  | nil =>
      rw [hs] at hf'
      exact absurd hf' (List.not_mem_nil f)
  | cons h0 tl =>
      have hf0 : f = h0 := by
        rw [hs] at hf'
        rcases List.mem_cons.mp hf' with h | h
        · exact h
        · exfalso
          apply hnr
          rw [hprune, hs]
          exact List.mem_map_of_mem _ h
      rw [hs] at hg' hsorted
      rw [List.sorted_cons] at hsorted
      rcases List.mem_cons.mp hg' with h | h
      · rw [h, hf0]
        exact pyStrLe_refl _
      · rw [hf0]
        exact hsorted.1 g h

/-- Claim C5 counterexample: after a first non-final checkpoint created
the backup out_backup_20240101_000000.po, a second non-final checkpoint
at a later timestamp writes the SAME path again instead of a new
timestamped one, and a final checkpoint of an interrupted run performs
no pruning even though an older backup is present. -/
theorem claim5_counterexample :
    (save_progress
        ⟨some "out_backup_20240101_000000.po", some "out_backup_20240101_000000.po"⟩
        false "out.po" "20240202_000000" false false false false [] false).2 =
      [FileOp.save "out_backup_20240101_000000.po"] ∧
    create_backup_filename "out.po" "20240202_000000" ≠
      "out_backup_20240101_000000.po" ∧
    (save_progress
        ⟨some "out_backup_20240101_000000.po", some "out_backup_20240101_000000.po"⟩
        true "out.po" "20240303_000000" false false false false
        ["out_backup_20240101_000000.po", "out_backup_20240303_000000.po"] true).2 =
      [FileOp.save "out_backup_20240303_000000.po",
       FileOp.copy "out_backup_20240303_000000.po" "out.po"] := by
  refine ⟨rfl, by decide, rfl⟩

/-- Claim C5 (amended): the first checkpoint of a run and every final
checkpoint write the catalog to a fresh timestamped backup path, while
every later non-final checkpoint reuses (overwrites) the run's existing
backup path; a final checkpoint additionally copies the backup onto the
canonical output path and, when the run was not interrupted, prunes the
matching backups so that only the greatest (most recent) name is
retained. -/
theorem claim5_amended (st st0 : SaveState) (intr : Bool)
    (output ts b f g : String) (dl : List String)
    (h1 : st.last_saved_file.isSome = true) (h2 : st.backup_file = some b)
    (h3 : st0.last_saved_file = none)
    (hf : f ∈ dl.filter (fun x => pyStartsWith x (backupStem output)))
    (hnr : FileOp.remove (path_join (dirname output) f) ∉ prune_backups output dl)
    (hg : g ∈ dl.filter (fun x => pyStartsWith x (backupStem output))) :
    (save_progress st intr output ts false false false false dl false).2 =
      [FileOp.save b] ∧
    (save_progress st intr output ts false false false false dl true).2 =
      FileOp.save (create_backup_filename output ts) ::
        FileOp.copy (create_backup_filename output ts) output ::
        (if intr then [] else prune_backups output dl) ∧
    (save_progress st0 intr output ts false false false false dl false).2 =
      [FileOp.save (create_backup_filename output ts)] ∧
    pyLe g f = true := by
  obtain ⟨x, hx⟩ := Option.isSome_iff_exists.mp h1
  refine ⟨?_, save_progress_ops_final_no_fail st intr output ts dl, ?_,
    prune_retained_max output f g dl hf hnr hg⟩
  · simp [save_progress, hx, h2]
  · simp [save_progress, h3]

/-- Claim C5 witness: the amended theorem applied to a run whose state
already holds backup path "x", with directory listing containing two
matching backups of "o.po". -/
theorem claim5_witness :
    ((⟨some "x", some "x"⟩ : SaveState).last_saved_file.isSome = true) ∧
    ((⟨some "x", some "x"⟩ : SaveState).backup_file = some "x") ∧
    ((⟨none, none⟩ : SaveState).last_saved_file = none) ∧
    "o_backup_2.po" ∈ (["o_backup_1.po", "o_backup_2.po"].filter
      (fun x => pyStartsWith x (backupStem "o.po"))) ∧
    FileOp.remove (path_join (dirname "o.po") "o_backup_2.po") ∉
      prune_backups "o.po" ["o_backup_1.po", "o_backup_2.po"] ∧
    "o_backup_1.po" ∈ (["o_backup_1.po", "o_backup_2.po"].filter
      (fun x => pyStartsWith x (backupStem "o.po"))) ∧
    ((save_progress ⟨some "x", some "x"⟩ false "o.po" "T" false false false false
        ["o_backup_1.po", "o_backup_2.po"] false).2 = [FileOp.save "x"] ∧
     (save_progress ⟨some "x", some "x"⟩ false "o.po" "T" false false false false
        ["o_backup_1.po", "o_backup_2.po"] true).2 =
       FileOp.save (create_backup_filename "o.po" "T") ::
         FileOp.copy (create_backup_filename "o.po" "T") "o.po" ::
         (if false then []
          else prune_backups "o.po" ["o_backup_1.po", "o_backup_2.po"]) ∧
     (save_progress ⟨none, none⟩ false "o.po" "T" false false false false
        ["o_backup_1.po", "o_backup_2.po"] false).2 =
       [FileOp.save (create_backup_filename "o.po" "T")] ∧
     pyLe "o_backup_1.po" "o_backup_2.po" = true) := by
  refine ⟨rfl, rfl, rfl, by decide, by decide, by decide, ?_⟩
  exact claim5_amended ⟨some "x", some "x"⟩ ⟨none, none⟩ false "o.po" "T" "x"
    "o_backup_2.po" "o_backup_1.po" ["o_backup_1.po", "o_backup_2.po"]
    rfl rfl rfl (by decide) (by decide) (by decide)

/-- Claim C6 counterexample: when the write to the backup path fails,
save_progress falls back to writing the canonical output path "out.po"
directly in place — refuting the claim that no code path writes the
canonical output directly. -/
theorem claim6_counterexample :
    (save_progress ⟨none, none⟩ false "out.po" "20240101_000000" true false
        false false [] true).2 = [FileOp.save "out.po"] := rfl

/-- Claim C6 (amended): direct in-place writes of the canonical output
path happen exactly on the except fallback of save_progress: when no
step of the outer try block raises (the backup write, the copy onto the
canonical path, and the pruning's directory listing), the canonical
output is only ever touched by the copy from the fully-written backup
file; but a failure of the copy, or of the directory listing — even
after a successful backup write — falls back to a direct save of the
canonical path, as does a failed backup write (and translate_po_file's
no-entries short-circuit and post-error handler also save the canonical
path directly). -/
theorem claim6_amended (st : SaveState) (intr : Bool) (output ts : String)
    (dl : List String) (isf : Bool)
    (h1 : st.backup_file ≠ some output) (h2 : output ≠ "") :
    FileOp.save output ∉
      (save_progress st intr output ts false false false false dl isf).2 ∧
    (save_progress st intr output ts false true false false dl true).2 =
      [FileOp.save (create_backup_filename output ts), FileOp.save output] ∧
    (save_progress st false output ts false false true false dl true).2 =
      [FileOp.save (create_backup_filename output ts),
       FileOp.copy (create_backup_filename output ts) output,
       FileOp.save output] := by
  have hgetD : st.backup_file.getD "" ≠ output := by
    cases hb : st.backup_file with
    | none => simpa using Ne.symm h2
    | some b =>
        simp only [Option.getD_some]
        intro hbe
        exact h1 (by rw [hb, hbe])
  have hfresh := create_backup_filename_ne output ts
  refine ⟨?_, by simp [save_progress], by simp [save_progress]⟩
  cases isf with
  | false =>
      rw [save_progress_ops_nonfinal_no_fail]
      intro hmem
      rw [List.mem_singleton] at hmem
      have heq := (FileOp.save.inj hmem).symm
      by_cases hn : st.last_saved_file.isNone = true
      · rw [if_pos hn] at heq
        exact hfresh heq
      · rw [if_neg hn] at heq
        exact hgetD heq
  | true =>
      rw [save_progress_ops_final_no_fail]
      intro hmem
      rcases List.mem_cons.mp hmem with h | h
      · exact hfresh (FileOp.save.inj h).symm
      · rcases List.mem_cons.mp h with h2 | h2
        · exact FileOp.noConfusion h2
        · cases intr with
          | false => exact save_not_mem_prune output output dl h2
          | true => exact absurd h2 (List.not_mem_nil _)

/-- Claim C6 witness: the amended theorem applied to a fresh run state
finally saving "out.po", with the fully-successful try block in the
first conjunct and the copy / directory-listing failures in the
others. -/
theorem claim6_witness :
    ((⟨none, none⟩ : SaveState).backup_file ≠ some "out.po") ∧
    ("out.po" : String) ≠ "" ∧
    (FileOp.save "out.po" ∉
      (save_progress ⟨none, none⟩ false "out.po" "T" false false false false
        [] true).2 ∧
     (save_progress ⟨none, none⟩ false "out.po" "T" false true false false
        [] true).2 =
       [FileOp.save (create_backup_filename "out.po" "T"),
        FileOp.save "out.po"] ∧
     (save_progress ⟨none, none⟩ false "out.po" "T" false false true false
        [] true).2 =
       [FileOp.save (create_backup_filename "out.po" "T"),
        FileOp.copy (create_backup_filename "out.po" "T") "out.po",
        FileOp.save "out.po"]) :=
  ⟨by decide, by decide,
   claim6_amended ⟨none, none⟩ false "out.po" "T" [] true (by decide) (by decide)⟩

/-- Claim C7 counterexample: the fingerprint joins the language pair
with underscores, so the distinct language pairs (a_b, c) and (a, b_c)
produce the same cache key for the same text — the claim that distinct
language pairs never collide fails. -/
theorem claim7_counterexample :
    get_cache_key "x" "a_b" "c" = get_cache_key "x" "a" "b_c" ∧
    (("a_b", "c") : String × String) ≠ ("a", "b_c") := by
  constructor
  · show ("a_b" ++ "_" ++ "c" ++ "_" : String) ++ md5hex "x" =
      ("a" ++ "_" ++ "b_c" ++ "_" : String) ++ md5hex "x"
    exact congrArg (fun p => p ++ md5hex "x") (by decide)
  · decide

/-- Claim C7 (amended): the cache fingerprint is a deterministic
function of (text, source language, target language), and for a fixed
text two language pairs whose codes contain no underscore character
produce the same fingerprint only if they are the same pair. -/
theorem claim7_amended (text s1 t1 s2 t2 : String)
    (hs1 : '_' ∉ s1.data) (ht1 : '_' ∉ t1.data)
    (hs2 : '_' ∉ s2.data) (ht2 : '_' ∉ t2.data)
    (h : get_cache_key text s1 t1 = get_cache_key text s2 t2) :
    s1 = s2 ∧ t1 = t2 := by
  have hd := congrArg String.data h
  simp only [get_cache_key, string_data_append] at hd
  simp only [List.append_assoc, List.singleton_append] at hd
  obtain ⟨h1, h2⟩ := append_cons_inj hs1 hs2 hd
  obtain ⟨h3, _⟩ := append_cons_inj ht1 ht2 h2
  exact ⟨congrArg String.mk h1, congrArg String.mk h3⟩

/-- Claim C7 witness: the amended theorem applied to the underscore-free
language pair (en, fa). -/
theorem claim7_witness :
    ('_' ∉ ("en" : String).data) ∧ ('_' ∉ ("fa" : String).data) ∧
    get_cache_key "Hello" "en" "fa" = get_cache_key "Hello" "en" "fa" ∧
    (("en" : String) = "en" ∧ ("fa" : String) = "fa") :=
  ⟨by decide, by decide, rfl,
   claim7_amended "Hello" "en" "fa" "en" "fa" (by decide) (by decide)
     (by decide) (by decide) rfl⟩

/-- Claim C8: for every empty or whitespace-only input text,
translate_text returns the text unchanged without invoking any
translation service and without changing the cache; the cache lookup
returns the text itself without consulting the mapping, and the store
operation leaves the cache untouched whatever translation is offered. -/
theorem claim8_empty_text_untouched (service : String) (backend : Backend)
    (cache : List (String × String)) (text s t translated : String)
    (h : pyFalsy text = true ∨ pyIsSpace text = true) :
    translate_text service backend cache text s t = ⟨text, cache, false⟩ ∧
    get_cached_translation cache text s t = some text ∧
    cache_translation cache text translated s t = cache := by
  rcases h with h | h
  · exact ⟨by simp [translate_text, h], by simp [get_cached_translation, h],
      by simp [cache_translation, h]⟩
  · exact ⟨by simp [translate_text, h], by simp [get_cached_translation, h],
      by simp [cache_translation, h]⟩

/-- Claim C8 witness: the theorem applied to the whitespace-only text
" " with a nonempty cache and a succeeding backend. -/
theorem claim8_witness :
    (pyFalsy " " = true ∨ pyIsSpace " " = true) ∧
    (translate_text "google" (fun _ _ _ => some "X") [("k", "v")] " " "en" "fa" =
      ⟨" ", [("k", "v")], false⟩ ∧
     get_cached_translation [("k", "v")] " " "en" "fa" = some " " ∧
     cache_translation [("k", "v")] " " "T" "en" "fa" = [("k", "v")]) :=
  ⟨Or.inr (by decide),
   claim8_empty_text_untouched "google" (fun _ _ _ => some "X") [("k", "v")]
     " " "en" "fa" "T" (Or.inr (by decide))⟩

/-- Claim C9: the interruption flag is monotonic — its only writer,
signal_handler, always sets it to true, and the batch loop never resets
it — and once the flag is set no further batch is dispatched: a loop
entered with the flag set dispatches nothing, batch_translate refuses
to start work when the flag is set, and when the signal arrives before
iteration k at most the first k batches are dispatched. -/
theorem claim9_cancellation_monotonic {α : Type} :
    (∀ b : Bool, signal_handler b = true) ∧
    (∀ steps : List (Bool × α), batch_loop true steps = (true, [])) ∧
    (∀ (translate1 : String → String) (raises : Nat × String × String → Bool)
      (texts : List (Nat × String × String)),
      batch_translate true translate1 raises texts = []) ∧
    (∀ (pre post : List (Bool × α)) (b : α) (intr : Bool),
      (batch_loop intr (pre ++ (true, b) :: post)).2.length ≤ pre.length) := by
  refine ⟨fun b => rfl, ?_, fun _ _ _ => rfl, ?_⟩
  · intro steps
    cases steps with
    | nil => rfl
    | cons p rest =>
        obtain ⟨sig, b⟩ := p
        cases sig <;> rfl
  · intro pre
    induction pre with
    | nil =>
        intro post b intr
        simp [batch_loop, signal_handler]
    | cons p rest ih =>
        intro post b intr
        obtain ⟨s0, b0⟩ := p
        cases s0 with
        | false =>
            cases intr with
            | false =>
                have hih := ih post b false
                simp only [List.cons_append, batch_loop, signal_handler]
                simp only [if_neg, Bool.false_eq_true, if_false, List.length_cons,
                  List.append_eq]
                omega
            | true => simp [batch_loop]
        | true => simp [batch_loop, signal_handler]

/-- Claim C10: the cache never maps a key to an empty translation —
storing an empty translated text is a no-op, storing through
cache_translation preserves the absence of empty values — and
translate_text treats an empty cached value as a miss: it proceeds to
invoke the backend service rather than returning the empty value. -/
theorem claim10_no_empty_values (backend : Backend) :
    (∀ (cache : List (String × String)) (text s t : String),
      cache_translation cache text "" s t = cache) ∧
    (∀ (cache : List (String × String)) (text tr s t : String)
      (p : String × String), (∀ q ∈ cache, q.2 ≠ "") →
      p ∈ cache_translation cache text tr s t → p.2 ≠ "") ∧
    (∀ (cache : List (String × String)) (text s t : String),
      pyFalsy text = false → pyIsSpace text = false →
      dictGet cache (get_cache_key text s t) = some "" →
      (translate_text "google" backend cache text s t).backend_called = true ∧
      (translate_text "google" backend cache text s t).result =
        translate_with_google backend text s t) := by
  refine ⟨?_, ?_, ?_⟩
  · intro cache text s t
    simp [cache_translation, pyFalsy]
  · intro cache text tr s t p hinv hp
    unfold cache_translation at hp
    split at hp
    · exact hinv p hp
    · rename_i hcond
      rcases mem_dictInsert _ _ _ _ hp with h | h
      · simp only [Bool.or_eq_true, not_or] at hcond
        have htr := hcond.2
        simp only [pyFalsy, Bool.not_eq_true, beq_eq_false_iff_ne, ne_eq] at htr
        rw [h]
        exact htr
      · exact hinv p h
  · intro cache text s t h1 h2 h3
    constructor <;>
      simp [translate_text, get_cached_translation, h1, h2, h3, pyTruthyOpt]

/-- Claim C10 witness: the parts of the theorem with hypotheses applied
to the text "Hi" and a cache whose sole entry maps the fingerprint of
"Hi" to the empty string. -/
theorem claim10_witness :
    pyFalsy "Hi" = false ∧ pyIsSpace "Hi" = false ∧
    dictGet [(get_cache_key "Hi" "en" "fa", "")] (get_cache_key "Hi" "en" "fa") =
      some "" ∧
    ((translate_text "google" (fun _ _ _ => some "X")
        [(get_cache_key "Hi" "en" "fa", "")] "Hi" "en" "fa").backend_called =
      true ∧
     (translate_text "google" (fun _ _ _ => some "X")
        [(get_cache_key "Hi" "en" "fa", "")] "Hi" "en" "fa").result =
       translate_with_google (fun _ _ _ => some "X") "Hi" "en" "fa") := by
  refine ⟨by decide, by decide, ?_, ?_⟩
  · simp [dictGet]
  · exact (claim10_no_empty_values (fun _ _ _ => some "X")).2.2
      [(get_cache_key "Hi" "en" "fa", "")] "Hi" "en" "fa" (by decide) (by decide)
      (by simp [dictGet])

end POTranslator
